import Mathlib

/-!
Shallow embedding of `scripts/approxQoEdist.py` (approx-qoe-distribution).

Conventions used throughout:
* Python floats are modelled by elements of a linear ordered field (`ℚ` for the
  purely rational parts, `ℝ` where square roots or the Beta distribution occur).
* A Python `raise ValueError(msg)` is modelled by `Except.error e` where `e`
  names the failure condition carried by the message.
* Python scalar division raises `ZeroDivisionError` on a zero denominator, so a
  scalar division whose denominator can actually be zero on the reachable
  inputs is guarded by an explicit `Err.zeroDivision` branch.  Divisions whose
  denominator is provably nonzero on every path that reaches them (for example
  `high - low` after the `low < high` check) are left as plain field division.
* Numpy array division does not raise (it yields `nan`/`inf`), so array-level
  divisions are modelled as plain field division.
* A call into `scipy.stats.beta` with shape parameters outside scipy's domain
  `a > 0 ∧ b > 0` returns `nan`; a float that may be `nan` is modelled as
  `Option ℝ` with `none` standing for `nan`.
-/

/-- Failure conditions of the validation and computation steps; each
constructor names the condition carried by the `ValueError` message raised at
the corresponding `raise` site (plus `zeroDivision` for Python's
`ZeroDivisionError`). -/
inductive Err where
  | invalidScale
  | invalidMOS
  | invalidSOS
  | sosExceedsBound
  | invalidSOSParameter
  | outOfRangeRating
  | zeroDivision
  deriving DecidableEq, Repr

section FieldDefs

variable {K : Type} [LinearOrderedField K]

/-- Embedding of `calcSOSParameterForMOSSOS(mos, sos, low, high)`:
`zmos = (mos-low)/(high-low)`, `zvar = (sos/(high-low))**2`, returning
`np.sum((zmos - zmos**2)*zvar) / np.sum((zmos - zmos**2)**2)` with the numpy
arrays modelled as lists and elementwise operations as `map`/`zipWith`. -/
def calcSOSParameterForMOSSOS (mos sos : List K) (low high : K) : K :=
  let zmos := mos.map (fun m => (m - low) / (high - low))
  let zvar := sos.map (fun s => (s / (high - low)) ^ 2)
  (List.zipWith (fun z v => (z - z ^ 2) * v) zmos zvar).sum /
    ((zmos.map (fun z => (z - z ^ 2) ^ 2)).sum)

/-- Embedding of `getBetaParamsForMOSSOS(mos, sos, low, high)`: the four
`raise` sites in source order, then the moment inversion
`a = ((1-mu)/sigma2 - 1/mu)*mu**2`, `b = a*(1/mu - 1)`.  The two scalar
divisions with possibly-zero denominators (`sigma2` and `mu`) are guarded in
Python evaluation order. -/
def getBetaParamsForMOSSOS (mos sos low high : K) : Except Err (K × K) :=
  if low ≥ high then .error .invalidScale
  else if mos > high ∨ mos < low then .error .invalidMOS
  else if sos ^ 2 > (high - mos) * (mos - low) then .error .sosExceedsBound
  else if sos < 0 then .error .invalidSOS
  else
    let mu := (mos - low) / (high - low)
    let sigma2 := (sos / (high - low)) ^ 2
    if sigma2 = 0 then .error .zeroDivision
    else if mu = 0 then .error .zeroDivision
    else
      let a := ((1 - mu) / sigma2 - 1 / mu) * mu ^ 2
      let b := a * (1 / mu - 1)
      .ok (a, b)

/-- Embedding of `checkParameters(mos, sos_parameter, low, high)`: the three
`raise` sites in source order; returns `()` when every check passes. -/
def checkParameters (mos sos_parameter low high : K) : Except Err Unit :=
  if low ≥ high then .error .invalidScale
  else if mos > high ∨ mos < low then .error .invalidMOS
  else if sos_parameter > 1 ∨ sos_parameter < 0 then .error .invalidSOSParameter
  else .ok ()

/-- Embedding of `getBetaParams(mos, sos_parameter, low, high)`: runs
`checkParameters`, then computes
`a = (1-p)*(mos-low)/((high-low)*p)` and `b = (1-p)*(high-mos)/((high-low)*p)`.
The shared scalar denominator `(high-low)*p` can be zero (`p = 0` passes
validation), which Python reports as `ZeroDivisionError`. -/
def getBetaParams (mos sos_parameter low high : K) : Except Err (K × K) :=
  match checkParameters mos sos_parameter low high with
  | .error e => .error e
  | .ok _ =>
    if (high - low) * sos_parameter = 0 then .error .zeroDivision
    else
      .ok ((1 - sos_parameter) * (mos - low) / ((high - low) * sos_parameter),
           (1 - sos_parameter) * (high - mos) / ((high - low) * sos_parameter))

/-- Mean of a list, modelling `numpy.ndarray.mean` / `pandas` group mean
(an empty input yields `nan` in numpy; here division by zero yields `0`,
a case no claim touches). -/
def npMean (xs : List K) : K := xs.sum / (xs.length : K)

end FieldDefs

/-- Population standard deviation, modelling `numpy.ndarray.std` (which uses
`ddof=0`, i.e. divisor `n`). -/
noncomputable def npStd (xs : List ℝ) : ℝ :=
  Real.sqrt (((xs.map (fun x => (x - npMean xs) ^ 2)).sum) / (xs.length : ℝ))

/-- Sample standard deviation, modelling `pandas.core.groupby` `.std()`
(which uses `ddof=1`, i.e. divisor `n - 1`). -/
noncomputable def pdStd (xs : List ℝ) : ℝ :=
  Real.sqrt (((xs.map (fun x => (x - npMean xs) ^ 2)).sum) / ((xs.length : ℝ) - 1))

/-- Ratings of one condition group, modelling
`y.groupby(by='condition')["rating"]` restricted to condition `c`. -/
def groupRatings {C : Type} [DecidableEq C] (df : List (C × ℝ)) (c : C) : List ℝ :=
  (df.filter (fun r => r.1 = c)).map Prod.snd

/-- Embedding of the `numpy.ndarray` branch of `calcSOSParameter(y, low, high)`:
`calcSOSParameterForMOSSOS(y.mean(axis=1), y.std(axis=1))`.  Note that the
source forwards neither `low` nor `high` to `calcSOSParameterForMOSSOS`, so
that call always runs with the default bounds `low=1, high=5`. -/
noncomputable def calcSOSParameterArray (y : List (List ℝ)) (low high : ℝ) : ℝ :=
  calcSOSParameterForMOSSOS (y.map npMean) (y.map npStd) 1 5

/-- Embedding of the `pandas.DataFrame` branch of `calcSOSParameter(y, low, high)`:
group by `'condition'`, take each group's mean and (sample) standard deviation
of `'rating'`, and call `calcSOSParameterForMOSSOS(vals.mean(), vals.std())` —
again without forwarding `low` and `high`. -/
noncomputable def calcSOSParameterDF {C : Type} [DecidableEq C]
    (df : List (C × ℝ)) (low high : ℝ) : ℝ :=
  let conds := (df.map Prod.fst).dedup
  calcSOSParameterForMOSSOS (conds.map (fun c => npMean (groupRatings df c)))
    (conds.map (fun c => pdStd (groupRatings df c))) 1 5

/-- Density kernel of the Beta distribution, `t ^ (a-1) * (1-t) ^ (b-1)`
(real powers). -/
noncomputable def betaDens (a b t : ℝ) : ℝ := t ^ (a - 1) * (1 - t) ^ (b - 1)

/-- Mathematical value of `scipy.stats.beta.cdf(x, a, b)` on the unit scale:
the regularized incomplete Beta integral, with the evaluation point clamped to
`[0, 1]` (scipy returns `0` below the support and `1` above it). -/
noncomputable def betaCDFval (a b x : ℝ) : ℝ :=
  (∫ t in (0:ℝ)..(max 0 (min x 1)), betaDens a b t) / ∫ t in (0:ℝ)..1, betaDens a b t

/-- Model of the call `scipy.stats.beta.cdf(x, a, b)`: scipy's argument check
requires `a > 0` and `b > 0` and yields `nan` (here `none`) otherwise. -/
noncomputable def scipyBetaCDF (x a b : ℝ) : Option ℝ :=
  if 0 < a ∧ 0 < b then some (betaCDFval a b x) else none

/-- Mathematical value of `scipy.stats.beta.pdf(x, a, b)` on the unit scale at
interior points: the density kernel normalized by the full Beta integral. -/
noncomputable def betaPDFval (a b x : ℝ) : ℝ :=
  betaDens a b x / ∫ t in (0:ℝ)..1, betaDens a b t

/-- Model of the call `scipy.stats.beta.pdf(x, a, b)`: `nan` (here `none`)
outside scipy's shape-parameter domain `a > 0 ∧ b > 0`. -/
noncomputable def scipyBetaPDF (x a b : ℝ) : Option ℝ :=
  if 0 < a ∧ 0 < b then some (betaPDFval a b x) else none

/-- Embedding of `getBetaCDF(x, mos, sos_parameter, low, high)`: validation,
range check on `x`, the two degenerate branches, then
`beta.cdf((x-low)/(high-low), a, b)` with `(a, b)` from `getBetaParams`. -/
noncomputable def getBetaCDF (x mos sos_parameter low high : ℝ) :
    Except Err (Option ℝ) :=
  match checkParameters mos sos_parameter low high with
  | .error e => .error e
  | .ok _ =>
    if x < low ∨ x > high then .error .outOfRangeRating
    else if mos = high then .ok (some (if x < high then 0 else 1))
    else if mos = low then .ok (some 1)
    else
      match getBetaParams mos sos_parameter low high with
      | .error e => .error e
      | .ok (a, b) => .ok (scipyBetaCDF ((x - low) / (high - low)) a b)

/-- Embedding of `getBetaPDF(x, mos, sos_parameter, low, high)`: validation and
range check, then directly `beta.pdf((x-low)/(high-low), a, b)` — the source
has no degenerate branch for `mos == low` or `mos == high` here. -/
noncomputable def getBetaPDF (x mos sos_parameter low high : ℝ) :
    Except Err (Option ℝ) :=
  match checkParameters mos sos_parameter low high with
  | .error e => .error e
  | .ok _ =>
    if x < low ∨ x > high then .error .outOfRangeRating
    else
      match getBetaParams mos sos_parameter low high with
      | .error e => .error e
      | .ok (a, b) => .ok (scipyBetaPDF ((x - low) / (high - low)) a b)

/-- Handle for the frozen distribution `scipy.stats.beta(a, b, loc, scale)`;
the constructor records its arguments without validating them. -/
structure BetaDist where
  a : ℝ
  b : ℝ
  loc : ℝ
  scale : ℝ

/-- Cumulative of a frozen `scipy.stats.beta(a, b, loc, scale)` handle:
`beta.cdf((x - loc)/scale, a, b)`. -/
noncomputable def BetaDist.cdf (d : BetaDist) (x : ℝ) : Option ℝ :=
  scipyBetaCDF ((x - d.loc) / d.scale) d.a d.b

/-- Embedding of `getBetaDistribution(mos, sos_parameter, low, high)`:
validation, shape parameters from `getBetaParams`, then the frozen handle
`beta(a, b, loc=low, scale=high-low)` — again with no degenerate branch. -/
noncomputable def getBetaDistribution (mos sos_parameter low high : ℝ) :
    Except Err BetaDist :=
  match checkParameters mos sos_parameter low high with
  | .error e => .error e
  | .ok _ =>
    match getBetaParams mos sos_parameter low high with
    | .error e => .error e
    | .ok (a, b) => .ok ⟨a, b, low, high - low⟩

/-- Embedding of `np.arange(start, stop)` (unit step) over the reals: length
`⌈stop - start⌉`, entries `start + i`.  On the half-integer arguments used by
the source the float computation is exact, so the real model agrees with it. -/
noncomputable def npArange (start stop : ℝ) : List ℝ :=
  (List.range ⌈stop - start⌉₊).map (fun i : ℕ => start + (i : ℝ))

/-- Embedding of `np.arange(lo, hi)` (unit step) on integers. -/
def intArange (lo hi : ℤ) : List ℤ :=
  (List.range (hi - lo).toNat).map (fun i : ℕ => lo + (i : ℤ))

/-- Embedding of `np.diff` on a float array (`none` = `nan`, which propagates
through subtraction): `out[i] = l[i+1] - l[i]`. -/
def npDiff : List (Option ℝ) → List (Option ℝ)
  | x :: y :: rest => Option.map₂ Sub.sub y x :: npDiff (y :: rest)
  | _ => []

/-- Embedding of `getDiscreteDistribution(mos, sos_parameter, low, high)` for
an integer-point scale (`low`, `high` integers, as in every use in the source;
`np.zeros(high+1-low)` requires an integer argument).  Returns the pair
`(xk, pk)` passed to `rv_discrete(values=(xk, pk))`: the support
`xk = np.arange(low, high+1)` and the masses `pk`.  In the general case the
bin edges are `zk = np.arange(low-0.5, high+1.5)` with `zk[0], zk[-1]`
overwritten by `low, high`, and `pk = np.diff(rv_cont.cdf(zk))`. -/
noncomputable def getDiscreteDistribution (mos sos_parameter : ℝ) (low high : ℤ) :
    Except Err (List ℤ × List (Option ℝ)) :=
  match checkParameters mos sos_parameter (low : ℝ) (high : ℝ) with
  | .error e => .error e
  | .ok _ =>
    let xk := intArange low (high + 1)
    if mos = (high : ℝ) then
      .ok (xk, (((List.replicate (high + 1 - low).toNat (0:ℝ)).set
        ((high + 1 - low).toNat - 1) 1).map some))
    else if mos = (low : ℝ) then
      .ok (xk, (((List.replicate (high + 1 - low).toNat (0:ℝ)).set 0 1).map some))
    else
      match getBetaDistribution mos sos_parameter (low : ℝ) (high : ℝ) with
      | .error e => .error e
      | .ok rv_cont =>
        let zk := npArange ((low : ℝ) - 0.5) ((high : ℝ) + 1.5)
        let zk := (zk.set 0 (low : ℝ)).set (zk.length - 1) (high : ℝ)
        let bcdf := zk.map rv_cont.cdf
        let pk := npDiff bcdf
        .ok (xk, pk)

section BetaAnalysis

open MeasureTheory intervalIntegral Set

lemma betaDens_nonneg {a b t : ℝ} (h0 : 0 ≤ t) (h1 : t ≤ 1) : 0 ≤ betaDens a b t :=
  mul_nonneg (Real.rpow_nonneg h0 _) (Real.rpow_nonneg (by linarith) _)

lemma betaDens_pos {a b t : ℝ} (h0 : 0 < t) (h1 : t < 1) : 0 < betaDens a b t :=
  mul_pos (Real.rpow_pos_of_pos h0 _) (Real.rpow_pos_of_pos (by linarith) _)

lemma betaDens_intervalIntegrable_left {a : ℝ} (ha : 0 < a) (b : ℝ) :
    IntervalIntegrable (betaDens a b) volume 0 (1 / 2) := by
  apply IntervalIntegrable.mul_continuousOn
  · exact intervalIntegrable_rpow' (by linarith)
  · refine (continuousOn_const.sub continuousOn_id).rpow_const (fun t ht => Or.inl ?_)
    rw [uIcc_of_le (by norm_num : (0:ℝ) ≤ 1 / 2)] at ht
    have : t ≤ 1 / 2 := ht.2
    intro h
    simp only [id_eq, sub_eq_zero] at h
    linarith

lemma betaDens_intervalIntegrable_right (a : ℝ) {b : ℝ} (hb : 0 < b) :
    IntervalIntegrable (betaDens a b) volume (1 / 2) 1 := by
  apply IntervalIntegrable.continuousOn_mul
  · have h1 : IntervalIntegrable (fun t : ℝ => t ^ (b - 1)) volume 0 (1 / 2) :=
      intervalIntegrable_rpow' (by linarith)
    have h2 := h1.comp_sub_left 1
    norm_num at h2
    exact h2.symm
  · refine continuousOn_id.rpow_const (fun t ht => Or.inl ?_)
    rw [uIcc_of_le (by norm_num : (1:ℝ) / 2 ≤ 1)] at ht
    have : 1 / 2 ≤ t := ht.1
    intro h
    rw [id_eq] at h
    linarith

lemma betaDens_intervalIntegrable {a b : ℝ} (ha : 0 < a) (hb : 0 < b) :
    IntervalIntegrable (betaDens a b) volume 0 1 :=
  (betaDens_intervalIntegrable_left ha b).trans (betaDens_intervalIntegrable_right a hb)

lemma betaInt_pos {a b : ℝ} (ha : 0 < a) (hb : 0 < b) :
    0 < ∫ t in (0:ℝ)..1, betaDens a b t :=
  intervalIntegral_pos_of_pos_on (betaDens_intervalIntegrable ha hb)
    (fun t ht => betaDens_pos ht.1 ht.2) one_pos

lemma betaNum_mono {a b u v : ℝ} (ha : 0 < a) (hb : 0 < b) (h0 : 0 ≤ u) (huv : u ≤ v)
    (h1 : v ≤ 1) :
    (∫ t in (0:ℝ)..u, betaDens a b t) ≤ ∫ t in (0:ℝ)..v, betaDens a b t := by
  have hI := betaDens_intervalIntegrable ha hb
  have hs1 : uIcc 0 u ⊆ uIcc (0:ℝ) 1 := by
    rw [uIcc_of_le h0, uIcc_of_le (by norm_num : (0:ℝ) ≤ 1)]
    exact Icc_subset_Icc le_rfl (le_trans huv h1)
  have hs2 : uIcc u v ⊆ uIcc (0:ℝ) 1 := by
    rw [uIcc_of_le huv, uIcc_of_le (by norm_num : (0:ℝ) ≤ 1)]
    exact Icc_subset_Icc h0 h1
  have hu : IntervalIntegrable (betaDens a b) volume 0 u := hI.mono_set hs1
  have huv' : IntervalIntegrable (betaDens a b) volume u v := hI.mono_set hs2
  have hadd := integral_add_adjacent_intervals hu huv'
  have hnn : 0 ≤ ∫ t in u..v, betaDens a b t :=
    integral_nonneg huv (fun t ht => betaDens_nonneg (le_trans h0 ht.1) (le_trans ht.2 h1))
  linarith [hadd]

lemma clamp01_mem {x : ℝ} : 0 ≤ max 0 (min x 1) ∧ max 0 (min x 1) ≤ 1 :=
  ⟨le_max_left 0 _, max_le (by norm_num) (min_le_right x 1)⟩

lemma betaCDFval_mono {a b : ℝ} (ha : 0 < a) (hb : 0 < b) : Monotone (betaCDFval a b) := by
  intro x y hxy
  unfold betaCDFval
  have hc : max 0 (min x 1) ≤ max 0 (min y 1) :=
    max_le_max le_rfl (min_le_min hxy le_rfl)
  have hnum := betaNum_mono ha hb (clamp01_mem (x := x)).1 hc (clamp01_mem (x := y)).2
  exact (div_le_div_iff_of_pos_right (betaInt_pos ha hb)).mpr hnum

lemma betaCDFval_zero (a b : ℝ) : betaCDFval a b 0 = 0 := by
  unfold betaCDFval
  rw [show max 0 (min (0:ℝ) 1) = 0 by norm_num, integral_same, zero_div]

lemma betaCDFval_one {a b : ℝ} (ha : 0 < a) (hb : 0 < b) : betaCDFval a b 1 = 1 := by
  unfold betaCDFval
  rw [show max 0 (min (1:ℝ) 1) = 1 by norm_num, div_self (ne_of_gt (betaInt_pos ha hb))]

end BetaAnalysis

section ListHelpers

/-- Successive differences of a real list, the `nan`-free counterpart of
`npDiff`. -/
def diffR : List ℝ → List ℝ
  | x :: y :: rest => (y - x) :: diffR (y :: rest)
  | _ => []

lemma npDiff_map_some : ∀ xs : List ℝ, npDiff (xs.map some) = (diffR xs).map some
  | [] => rfl
  | [_] => rfl
  | x :: y :: rest => by
    have ih := npDiff_map_some (y :: rest)
    simp only [List.map_cons] at ih
    simp only [List.map_cons, npDiff, diffR, ih]
    rfl

lemma diffR_sum : ∀ (x : ℝ) (xs : List ℝ), (diffR (x :: xs)).sum = xs.getLastD x - x
  | x, [] => by simp [diffR]
  | x, y :: ys => by
    simp only [diffR, List.sum_cons, diffR_sum y ys, List.getLastD_cons]
    ring

lemma diffR_nonneg : ∀ l : List ℝ, l.Chain' (· ≤ ·) → ∀ q ∈ diffR l, 0 ≤ q
  | [], _, q, hq => by simp [diffR] at hq
  | [_], _, q, hq => by simp [diffR] at hq
  | x :: y :: rest, hc, q, hq => by
    rw [List.chain'_cons] at hc
    simp only [diffR, List.mem_cons] at hq
    rcases hq with hq | hq
    · rw [hq]; linarith [hc.1]
    · exact diffR_nonneg (y :: rest) hc.2 q hq

lemma sum_replicate_zero_set : ∀ (n k : ℕ) (v : ℝ), k < n →
    ((List.replicate n (0:ℝ)).set k v).sum = v
  | 0, k, v, h => absurd h (Nat.not_lt_zero k)
  | n + 1, 0, v, _ => by simp [List.replicate_succ]
  | n + 1, k + 1, v, h => by
    rw [List.replicate_succ, List.set_cons_succ, List.sum_cons,
      sum_replicate_zero_set n k v (Nat.lt_of_succ_lt_succ h), zero_add]

lemma mem_replicate_zero_set {n k : ℕ} {v q : ℝ} (h0 : 0 ≤ v)
    (hq : q ∈ (List.replicate n (0:ℝ)).set k v) : 0 ≤ q := by
  rcases List.mem_or_eq_of_mem_set hq with h | h
  · rw [List.eq_of_mem_replicate h]
  · rw [h]; exact h0

lemma diffR_length : ∀ l : List ℝ, (diffR l).length = l.length - 1
  | [] => rfl
  | [_] => rfl
  | x :: y :: rest => by
    have ih := diffR_length (y :: rest)
    simp only [diffR, List.length_cons] at ih ⊢
    omega

lemma diffR_map_range : ∀ (m : ℕ) (g : ℕ → ℝ),
    diffR ((List.range (m + 1)).map g) = (List.range m).map (fun j => g (j + 1) - g j)
  | 0, g => rfl
  | m + 1, g => by
    have ih := diffR_map_range m (fun i => g (i + 1))
    have e1 : ∀ (k : ℕ) (h : ℕ → ℝ), (List.range (k + 1)).map h =
        h 0 :: (List.range k).map (fun i => h (i + 1)) := by
      intro k h
      rw [List.range_succ_eq_map, List.map_cons, List.map_map]
      rfl
    rw [e1 (m + 1) g, e1 m (fun i => g (i + 1))]
    show (g 1 - g 0) :: diffR (g 1 :: (List.range m).map fun i => g (i + 1 + 1)) = _
    rw [show (g 1 :: (List.range m).map fun i => g (i + 1 + 1)) =
      (List.range (m + 1)).map (fun i => g (i + 1)) from (e1 m (fun i => g (i + 1))).symm]
    rw [ih, e1 m (fun j => g (j + 1) - g j)]

lemma sum_range_map_sub (f : ℕ → ℝ) :
    ∀ m : ℕ, ((List.range m).map (fun j => f (j + 1) - f j)).sum = f m - f 0
  | 0 => by simp
  | m + 1 => by
    rw [List.range_succ, List.map_append, List.sum_append, sum_range_map_sub f m]
    simp

/-- Bin edges of the discretization as the spec describes them: the sequence
`low-0.5, low+0.5, …, high+0.5` with the first edge clamped to `low` and the
last (index `(high-low)+1`) clamped to `high`. -/
noncomputable def binEdge (low high : ℤ) (j : ℕ) : ℝ :=
  if j = 0 then (low : ℝ)
  else if j = (high - low).toNat + 1 then (high : ℝ)
  else (low : ℝ) + j - 1/2

lemma toNat_cast_real {low high : ℤ} (h : low < high) :
    (((high - low).toNat : ℝ)) = (high : ℝ) - (low : ℝ) := by
  have hr : ((high - low).toNat : ℤ) = high - low := Int.toNat_of_nonneg (by omega)
  exact_mod_cast hr

lemma binEdge_le_succ {low high : ℤ} (h : low < high) (j : ℕ) :
    binEdge low high j ≤ binEdge low high (j + 1) := by
  have hn1 : 1 ≤ (high - low).toNat := by omega
  have hc := toNat_cast_real h
  have hlh : (low : ℝ) < (high : ℝ) := by exact_mod_cast h
  unfold binEdge
  by_cases h0 : j = 0
  · subst h0
    rw [if_pos rfl, if_neg (by omega : ¬ 0 + 1 = 0),
      if_neg (by omega : ¬ 0 + 1 = (high - low).toNat + 1)]
    push_cast
    linarith
  · rw [if_neg h0, if_neg (by omega : ¬ j + 1 = 0)]
    by_cases hn : j = (high - low).toNat + 1
    · rw [if_pos hn, if_neg (by omega : ¬ j + 1 = (high - low).toNat + 1)]
      have hj : ((j : ℝ)) = ((high - low).toNat : ℝ) + 1 := by exact_mod_cast hn
      push_cast
      linarith
    · rw [if_neg hn]
      by_cases hm : j + 1 = (high - low).toNat + 1
      · rw [if_pos hm]
        have hj : ((j : ℝ)) = ((high - low).toNat : ℝ) := by
          have hj' : j = (high - low).toNat := by omega
          exact_mod_cast hj'
        linarith
      · rw [if_neg hm]
        push_cast
        linarith

lemma sum_map_getD {α M : Type} [AddCommMonoid M] :
    ∀ (l : List α) (d : α) (f : α → M),
      (l.map f).sum = ∑ i ∈ Finset.range l.length, f (l.getD i d)
  | [], d, f => by simp
  | a :: t, d, f => by
    rw [List.map_cons, List.sum_cons, sum_map_getD t d f, List.length_cons,
      Finset.sum_range_succ']
    simp [add_comm]

lemma sum_zipWith_getD {α β M : Type} [AddCommMonoid M] :
    ∀ (l1 : List α) (l2 : List β) (d1 : α) (d2 : β) (f : α → β → M),
      l1.length = l2.length →
      (List.zipWith f l1 l2).sum =
        ∑ i ∈ Finset.range l1.length, f (l1.getD i d1) (l2.getD i d2)
  | [], [], d1, d2, f, h => by simp
  | [], b :: t2, d1, d2, f, h => by simp at h
  | a :: t1, [], d1, d2, f, h => by simp at h
  | a :: t1, b :: t2, d1, d2, f, h => by
    rw [List.zipWith_cons_cons, List.sum_cons,
      sum_zipWith_getD t1 t2 d1 d2 f (by simpa using h), List.length_cons,
      Finset.sum_range_succ']
    simp [add_comm]

end ListHelpers

section ValidationHelpers

variable {K : Type} [LinearOrderedField K]

lemma checkParameters_ok {mos p low high : K} (h1 : low < high) (h2 : low ≤ mos)
    (h3 : mos ≤ high) (h4 : 0 ≤ p) (h5 : p ≤ 1) :
    checkParameters mos p low high = .ok () := by
  unfold checkParameters
  rw [if_neg (not_le.mpr h1), if_neg (by push_neg; exact ⟨h3, h2⟩),
    if_neg (by push_neg; exact ⟨h5, h4⟩)]

lemma getBetaParams_ok {mos p low high : K} (h1 : low < high) (h2 : low ≤ mos)
    (h3 : mos ≤ high) (h4 : 0 < p) (h5 : p ≤ 1) :
    getBetaParams mos p low high =
      .ok ((1 - p) * (mos - low) / ((high - low) * p),
           (1 - p) * (high - mos) / ((high - low) * p)) := by
  unfold getBetaParams
  rw [checkParameters_ok h1 h2 h3 (le_of_lt h4) h5]
  rw [if_neg (mul_ne_zero (ne_of_gt (sub_pos.mpr h1)) (ne_of_gt h4))]

end ValidationHelpers

/-- C6: for every validated input with `mos` strictly inside `(low, high)` and
SOS parameter `p ∈ (0, 1]`, `getBetaParams` returns exactly
`a = (1-p)*(mos-low)/((high-low)*p)` and `b = (1-p)*(high-mos)/((high-low)*p)`. -/
theorem getBetaParams_closed_form (mos p low high : ℚ) (h1 : low < mos) (h2 : mos < high)
    (h3 : 0 < p) (h4 : p ≤ 1) :
    getBetaParams mos p low high =
      .ok ((1 - p) * (mos - low) / ((high - low) * p),
           (1 - p) * (high - mos) / ((high - low) * p)) :=
  getBetaParams_ok (lt_trans h1 h2) (le_of_lt h1) (le_of_lt h2) h3 h4

/-- Witness for C6 at the spec's example: `getBetaParams(mos=4, sos_parameter=0.25,
low=1, high=5)` returns `(a, b) = (2.25, 0.75) = (9/4, 3/4)`. -/
theorem getBetaParams_closed_form_witness :
    getBetaParams (4:ℚ) (1/4) 1 5 = .ok (9/4, 3/4) := by
  rw [getBetaParams_closed_form 4 (1/4) 1 5 (by norm_num) (by norm_num) (by norm_num)
    (by norm_num)]
  norm_num

/-- C9: `checkParameters` accepts `sos_parameter = 0`, yet for any `mos`
strictly inside `(low, high)` the shape computation in `getBetaParams` divides
by `(high-low)*sos_parameter = 0`, reaching an unguarded Python
`ZeroDivisionError` rather than a validation error. -/
theorem getBetaParams_division_by_zero (mos low high : ℚ) (h1 : low < mos) (h2 : mos < high) :
    checkParameters mos (0:ℚ) low high = .ok () ∧
    getBetaParams mos (0:ℚ) low high = .error .zeroDivision := by
  have hok : checkParameters mos (0:ℚ) low high = .ok () :=
    checkParameters_ok (lt_trans h1 h2) (le_of_lt h1) (le_of_lt h2) le_rfl (by norm_num)
  refine ⟨hok, ?_⟩
  unfold getBetaParams
  rw [hok, if_pos (mul_zero _)]

/-- Witness for C9 at `mos=3, low=1, high=5`. -/
theorem getBetaParams_division_by_zero_witness :
    checkParameters (3:ℚ) 0 1 5 = .ok () ∧
    getBetaParams (3:ℚ) 0 1 5 = .error .zeroDivision :=
  getBetaParams_division_by_zero 3 1 5 (by norm_num) (by norm_num)

/-- C7 (amended): validation failures in `getBetaParamsForMOSSOS` and
`checkParameters`: `InvalidScale` for `low ≥ high`; `InvalidMOS` for `mos`
outside `[low, high]`; for a raw SOS, `SOSExceedsBound` whenever
`sos² > (high-mos)(mos-low)`, and `InvalidSOS` for `sos < 0` only when the
bound check does not fire first (the source tests the bound before the sign). -/
theorem validation_error_taxonomy (mos sos p low high : ℚ) :
    (low ≥ high → getBetaParamsForMOSSOS mos sos low high = .error .invalidScale ∧
      checkParameters mos p low high = .error .invalidScale) ∧
    (low < high → (mos > high ∨ mos < low) →
      getBetaParamsForMOSSOS mos sos low high = .error .invalidMOS ∧
      checkParameters mos p low high = .error .invalidMOS) ∧
    (low < high → low ≤ mos → mos ≤ high → sos ^ 2 > (high - mos) * (mos - low) →
      getBetaParamsForMOSSOS mos sos low high = .error .sosExceedsBound) ∧
    (low < high → low ≤ mos → mos ≤ high → sos ^ 2 ≤ (high - mos) * (mos - low) → sos < 0 →
      getBetaParamsForMOSSOS mos sos low high = .error .invalidSOS) := by
  refine ⟨fun h => ⟨?_, ?_⟩, fun h1 h2 => ⟨?_, ?_⟩, fun h1 h2 h3 h4 => ?_,
    fun h1 h2 h3 h4 h5 => ?_⟩
  · unfold getBetaParamsForMOSSOS; rw [if_pos h]
  · unfold checkParameters; rw [if_pos h]
  · unfold getBetaParamsForMOSSOS; rw [if_neg (not_le.mpr h1), if_pos h2]
  · unfold checkParameters; rw [if_neg (not_le.mpr h1), if_pos h2]
  · unfold getBetaParamsForMOSSOS
    rw [if_neg (not_le.mpr h1), if_neg (by push_neg; exact ⟨h3, h2⟩), if_pos h4]
  · unfold getBetaParamsForMOSSOS
    rw [if_neg (not_le.mpr h1), if_neg (by push_neg; exact ⟨h3, h2⟩),
      if_neg (not_lt.mpr h4), if_pos h5]

/-- Counterexample for C7 as stated: at `mos=3, sos=-3, low=1, high=5` the SOS
is negative, but the function fails with `SOSExceedsBound`, not `InvalidSOS`,
because the bound check precedes the sign check. -/
theorem validation_error_taxonomy_cex :
    getBetaParamsForMOSSOS (3:ℚ) (-3) 1 5 = .error .sosExceedsBound ∧
    Err.sosExceedsBound ≠ Err.invalidSOS := by
  refine ⟨?_, by decide⟩
  unfold getBetaParamsForMOSSOS
  norm_num

/-- Witness for C7 at the spec's example inputs: `low=5, high=1` gives
`InvalidScale`; `mos=6` on `[1,5]` gives `InvalidMOS`; `mos=3, sos=3` on
`[1,5]` gives `SOSExceedsBound`; `mos=3, sos=-1` on `[1,5]` gives
`InvalidSOS`. -/
theorem validation_error_taxonomy_witness :
    getBetaParamsForMOSSOS (3:ℚ) 0 5 1 = .error .invalidScale ∧
    checkParameters (6:ℚ) (1/4) 1 5 = .error .invalidMOS ∧
    getBetaParamsForMOSSOS (3:ℚ) 3 1 5 = .error .sosExceedsBound ∧
    getBetaParamsForMOSSOS (3:ℚ) (-1) 1 5 = .error .invalidSOS :=
  ⟨((validation_error_taxonomy 3 0 0 5 1).1 (by norm_num)).1,
   ((validation_error_taxonomy 6 0 (1/4) 1 5).2.1 (by norm_num) (by norm_num)).2,
   (validation_error_taxonomy 3 3 0 1 5).2.2.1 (by norm_num) (by norm_num) (by norm_num)
     (by norm_num),
   (validation_error_taxonomy 3 (-1) 0 1 5).2.2.2 (by norm_num) (by norm_num) (by norm_num)
     (by norm_num) (by norm_num)⟩

/-- C3: for every valid `(mos, sos_parameter, low, high)`, `getBetaCDF` fails
with `OutOfRangeRating` for `x < low` or `x > high`; if `mos == high` it
returns `0` for `x < high` and `1` at `x == high`; if `mos == low` it returns
`1` for every `x ∈ [low, high]` (the asymmetric degenerate handling — there is
no lower-bound branch returning `0`). -/
theorem getBetaCDF_degenerate_and_range (x mos p low high : ℝ) (h1 : low < high)
    (h2 : low ≤ mos) (h3 : mos ≤ high) (h4 : 0 ≤ p) (h5 : p ≤ 1) :
    ((x < low ∨ x > high) → getBetaCDF x mos p low high = .error .outOfRangeRating) ∧
    (mos = high → low ≤ x → x ≤ high →
      getBetaCDF x mos p low high = .ok (some (if x < high then 0 else 1))) ∧
    (mos = low → low ≤ x → x ≤ high → getBetaCDF x mos p low high = .ok (some 1)) := by
  have hok := checkParameters_ok h1 h2 h3 h4 h5
  unfold getBetaCDF
  rw [hok]
  refine ⟨fun hx => ?_, fun hmh hx1 hx2 => ?_, fun hml hx1 hx2 => ?_⟩
  · rw [if_pos hx]
  · rw [if_neg (by push_neg; exact ⟨hx1, hx2⟩), if_pos hmh]
  · have hne : mos ≠ high := by rw [hml]; exact ne_of_lt h1
    rw [if_neg (by push_neg; exact ⟨hx1, hx2⟩), if_neg hne, if_pos hml]

/-- Witness for C3: on the default scale with `mos = high = 5`, querying the
cumulative at `x = 6` fails with the range error, at `x = 3` it is `0`, and at
`x = 5` it is `1`; with `mos = low = 1` it is `1` at `x = 3`. -/
theorem getBetaCDF_degenerate_and_range_witness :
    getBetaCDF 6 5 (1/4) 1 5 = .error .outOfRangeRating ∧
    getBetaCDF 3 5 (1/4) 1 5 = .ok (some 0) ∧
    getBetaCDF 5 5 (1/4) 1 5 = .ok (some 1) ∧
    getBetaCDF 3 1 (1/4) 1 5 = .ok (some 1) := by
  refine ⟨(getBetaCDF_degenerate_and_range 6 5 (1/4) 1 5 (by norm_num) (by norm_num)
      (by norm_num) (by norm_num) (by norm_num)).1 (Or.inr (by norm_num)), ?_, ?_,
    (getBetaCDF_degenerate_and_range 3 1 (1/4) 1 5 (by norm_num) (by norm_num)
      (by norm_num) (by norm_num) (by norm_num)).2.2 rfl (by norm_num) (by norm_num)⟩
  · have h := (getBetaCDF_degenerate_and_range 3 5 (1/4) 1 5 (by norm_num) (by norm_num)
      (by norm_num) (by norm_num) (by norm_num)).2.1 rfl (by norm_num) (by norm_num)
    rw [h, if_pos (by norm_num : (3:ℝ) < 5)]
  · have h := (getBetaCDF_degenerate_and_range 5 5 (1/4) 1 5 (by norm_num) (by norm_num)
      (by norm_num) (by norm_num) (by norm_num)).2.1 rfl (by norm_num) (by norm_num)
    rw [h, if_neg (by norm_num : ¬ (5:ℝ) < 5)]

/-- Counterexample for C4 as stated: at `mos = high = 5` (which passes
validation), `getBetaDistribution` does not route to any degenerate handling —
it derives and uses the shape pair `(3, 0)`, whose second component is not
strictly positive, and `getBetaPDF` forwards to `beta.pdf` with that pair,
which returns `nan` (`none`), not a closed-form degenerate law. -/
theorem getBetaPDF_no_degenerate_routing_cex :
    (∃ d : BetaDist, getBetaDistribution 5 (1/4) 1 5 = .ok d ∧ d.b = 0 ∧ ¬ 0 < d.b) ∧
    getBetaPDF 5 5 (1/4) 1 5 = .ok none := by
  constructor
  · refine ⟨⟨3, 0, 1, 4⟩, ?_, rfl, by norm_num⟩
    unfold getBetaDistribution
    rw [checkParameters_ok (by norm_num : (1:ℝ) < 5) (by norm_num) (by norm_num)
      (by norm_num) (by norm_num)]
    rw [getBetaParams_ok (by norm_num : (1:ℝ) < 5) (by norm_num) (by norm_num)
      (by norm_num) (by norm_num)]
    simp only [BetaDist.mk.injEq, Except.ok.injEq]
    norm_num
  · have hc := @checkParameters_ok ℝ _ 5 (1/4) 1 5 (by norm_num) (by norm_num) (by norm_num)
      (by norm_num) (by norm_num)
    have hg := @getBetaParams_ok ℝ _ 5 (1/4) 1 5 (by norm_num) (by norm_num) (by norm_num)
      (by norm_num) (by norm_num)
    simp only [getBetaPDF, hc, hg, scipyBetaPDF]
    rw [if_neg (by push_neg; norm_num), if_neg (by push_neg; intro _; norm_num)]

/-- C4 (amended): `getBetaPDF` and `getBetaDistribution` never route boundary
MOS values to degenerate handling: on every validated input with
`sos_parameter ∈ (0, 1]` they derive the closed-form shape pair and use it, so
for `mos` strictly inside `(low, high)` with `sos_parameter < 1` the used pair
is strictly positive, but at `mos == high` the used pair has `b = 0` and at
`mos == low` it has `a = 0`, and in those cases the density evaluation yields
`nan` (`none`), not a degenerate law. -/
theorem getBetaDistribution_shape_params (mos p low high : ℝ) (h1 : low < high)
    (h2 : low ≤ mos) (h3 : mos ≤ high) (h4 : 0 < p) (h5 : p ≤ 1) :
    getBetaDistribution mos p low high =
      .ok ⟨(1 - p) * (mos - low) / ((high - low) * p),
           (1 - p) * (high - mos) / ((high - low) * p), low, high - low⟩ ∧
    (low < mos → mos < high → p < 1 →
      0 < (1 - p) * (mos - low) / ((high - low) * p) ∧
      0 < (1 - p) * (high - mos) / ((high - low) * p)) ∧
    (mos = high → (1 - p) * (high - mos) / ((high - low) * p) = 0 ∧
      getBetaPDF high mos p low high = .ok none) ∧
    (mos = low → (1 - p) * (mos - low) / ((high - low) * p) = 0 ∧
      getBetaPDF low mos p low high = .ok none) := by
  have hden : 0 < (high - low) * p := mul_pos (sub_pos.mpr h1) h4
  refine ⟨?_, fun hl hh hp1 => ⟨?_, ?_⟩, fun hmh => ⟨?_, ?_⟩, fun hml => ⟨?_, ?_⟩⟩
  · unfold getBetaDistribution
    rw [checkParameters_ok h1 h2 h3 (le_of_lt h4) h5, getBetaParams_ok h1 h2 h3 h4 h5]
  · exact div_pos (mul_pos (by linarith) (sub_pos.mpr hl)) hden
  · exact div_pos (mul_pos (by linarith) (sub_pos.mpr hh)) hden
  · rw [hmh, sub_self, mul_zero, zero_div]
  · simp only [getBetaPDF, checkParameters_ok h1 h2 h3 (le_of_lt h4) h5,
      getBetaParams_ok h1 h2 h3 h4 h5, scipyBetaPDF]
    rw [if_neg (by push_neg; exact ⟨le_of_lt h1, le_rfl⟩), if_neg]
    intro hab
    rw [hmh, sub_self, mul_zero, zero_div] at hab
    exact lt_irrefl 0 hab.2
  · rw [hml, sub_self, mul_zero, zero_div]
  · simp only [getBetaPDF, checkParameters_ok h1 h2 h3 (le_of_lt h4) h5,
      getBetaParams_ok h1 h2 h3 h4 h5, scipyBetaPDF]
    rw [if_neg (by push_neg; exact ⟨le_rfl, le_of_lt h1⟩), if_neg]
    intro hab
    rw [hml, sub_self, mul_zero, zero_div] at hab
    exact lt_irrefl 0 hab.1

/-- Witness for C4 (amended) at `mos=3, p=1/4` (interior: strictly positive
shapes) and `mos=low=1` (zero first shape, `nan` density). -/
theorem getBetaDistribution_shape_params_witness :
    getBetaDistribution 3 (1/4) 1 5 = .ok ⟨3/2, 3/2, 1, 4⟩ ∧
    getBetaPDF 1 1 (1/4) 1 5 = .ok none := by
  constructor
  · have h := (getBetaDistribution_shape_params 3 (1/4) 1 5 (by norm_num) (by norm_num)
      (by norm_num) (by norm_num) (by norm_num)).1
    rw [h]
    simp only [BetaDist.mk.injEq, Except.ok.injEq]
    norm_num
  · exact ((getBetaDistribution_shape_params 1 (1/4) 1 5 (by norm_num) (by norm_num)
      (by norm_num) (by norm_num) (by norm_num)).2.2.2 rfl).2

/-- Counterexample for C5 as stated: `mos=3, sos_parameter=1, low=1, high=5`
passes validation, but the derived shape pair is `(0, 0)`, outside scipy's
domain, so `beta.cdf` returns `nan` (`none`) and the cumulative at `high` is
not `1`. -/
theorem getBetaCDF_not_one_at_high_cex :
    getBetaCDF 5 3 1 1 5 = .ok none ∧
    (Except.ok none : Except Err (Option ℝ)) ≠ .ok (some 1) := by
  constructor
  · have hc := @checkParameters_ok ℝ _ 3 1 1 5 (by norm_num) (by norm_num) (by norm_num)
      (by norm_num) (by norm_num)
    have hg := @getBetaParams_ok ℝ _ 3 1 1 5 (by norm_num) (by norm_num) (by norm_num)
      (by norm_num) (by norm_num)
    simp only [getBetaCDF, hc, hg, scipyBetaCDF]
    norm_num
  · simp

/-- C5 (amended): for every validated input whose non-degenerate case has
`sos_parameter ∈ (0, 1)` (so the derived shape pair is strictly positive),
`getBetaCDF` is a real value, monotone non-decreasing in `x` on `[low, high]`,
equal to `1` at `x = high`, and at `x = low` equal to the point mass at `low`
(`1` if `mos == low`, else `0`). -/
theorem getBetaCDF_monotone_and_bounds (mos p low high : ℝ) (h1 : low < high)
    (h2 : low ≤ mos) (h3 : mos ≤ high) (h4 : 0 ≤ p) (h5 : p ≤ 1)
    (h6 : low < mos → mos < high → 0 < p ∧ p < 1) :
    (∀ x1 x2 : ℝ, low ≤ x1 → x1 ≤ x2 → x2 ≤ high →
      ∃ v1 v2 : ℝ, getBetaCDF x1 mos p low high = .ok (some v1) ∧
        getBetaCDF x2 mos p low high = .ok (some v2) ∧ v1 ≤ v2) ∧
    getBetaCDF high mos p low high = .ok (some 1) ∧
    getBetaCDF low mos p low high = .ok (some (if mos = low then 1 else 0)) := by
  have hok := checkParameters_ok h1 h2 h3 h4 h5
  by_cases hmh : mos = high
  · have hval : ∀ x : ℝ, low ≤ x → x ≤ high →
        getBetaCDF x mos p low high = .ok (some (if x < high then 0 else 1)) := by
      intro x hx1 hx2
      unfold getBetaCDF
      rw [hok, if_neg (by push_neg; exact ⟨hx1, hx2⟩), if_pos hmh]
    refine ⟨fun x1 x2 hx1 hx12 hx2 => ?_, ?_, ?_⟩
    · refine ⟨if x1 < high then 0 else 1, if x2 < high then 0 else 1,
        hval x1 hx1 (le_trans hx12 hx2), hval x2 (le_trans hx1 hx12) hx2, ?_⟩
      split_ifs with ha hb hb
      · exact le_rfl
      · norm_num
      · exfalso; push_neg at ha; exact absurd (lt_of_le_of_lt hx12 hb) (not_lt.mpr ha)
      · exact le_rfl
    · rw [hval high (le_of_lt h1) le_rfl, if_neg (lt_irrefl high)]
    · rw [hval low le_rfl (le_of_lt h1), if_pos h1,
        if_neg (by rw [hmh]; exact ne_of_gt h1)]
  · by_cases hml : mos = low
    · have hval : ∀ x : ℝ, low ≤ x → x ≤ high →
          getBetaCDF x mos p low high = .ok (some 1) := by
        intro x hx1 hx2
        unfold getBetaCDF
        rw [hok, if_neg (by push_neg; exact ⟨hx1, hx2⟩), if_neg hmh, if_pos hml]
      refine ⟨fun x1 x2 hx1 hx12 hx2 => ⟨1, 1, hval x1 hx1 (le_trans hx12 hx2),
        hval x2 (le_trans hx1 hx12) hx2, le_rfl⟩, hval high (le_of_lt h1) le_rfl, ?_⟩
      rw [hval low le_rfl (le_of_lt h1), if_pos hml]
    · have hl : low < mos := lt_of_le_of_ne h2 (Ne.symm hml)
      have hh : mos < high := lt_of_le_of_ne h3 hmh
      obtain ⟨hp0, hp1⟩ := h6 hl hh
      have hD : (0:ℝ) < high - low := sub_pos.mpr h1
      have hA : 0 < (1 - p) * (mos - low) / ((high - low) * p) :=
        div_pos (mul_pos (by linarith) (sub_pos.mpr hl)) (mul_pos hD hp0)
      have hB : 0 < (1 - p) * (high - mos) / ((high - low) * p) :=
        div_pos (mul_pos (by linarith) (sub_pos.mpr hh)) (mul_pos hD hp0)
      have hval : ∀ x : ℝ, low ≤ x → x ≤ high →
          getBetaCDF x mos p low high =
            .ok (some (betaCDFval ((1 - p) * (mos - low) / ((high - low) * p))
              ((1 - p) * (high - mos) / ((high - low) * p)) ((x - low) / (high - low)))) := by
        intro x hx1 hx2
        simp only [getBetaCDF, hok, getBetaParams_ok h1 h2 h3 hp0 h5, scipyBetaCDF]
        rw [if_neg (by push_neg; exact ⟨hx1, hx2⟩), if_neg hmh, if_neg hml,
          if_pos ⟨hA, hB⟩]
      refine ⟨fun x1 x2 hx1 hx12 hx2 => ?_, ?_, ?_⟩
      · refine ⟨_, _, hval x1 hx1 (le_trans hx12 hx2), hval x2 (le_trans hx1 hx12) hx2, ?_⟩
        exact betaCDFval_mono hA hB ((div_le_div_iff_of_pos_right hD).mpr (by linarith))
      · rw [hval high (le_of_lt h1) le_rfl, div_self (ne_of_gt hD),
          betaCDFval_one hA hB]
      · rw [hval low le_rfl (le_of_lt h1), sub_self, zero_div, betaCDFval_zero,
          if_neg hml]

/-- Witness for C5 (amended) at `mos=3, sos_parameter=1/4` on `[1, 5]`:
monotone between `x=2` and `x=4`, cumulative `1` at `x=5` and `0` at `x=1`. -/
theorem getBetaCDF_monotone_and_bounds_witness :
    (∃ v1 v2 : ℝ, getBetaCDF 2 3 (1/4) 1 5 = .ok (some v1) ∧
      getBetaCDF 4 3 (1/4) 1 5 = .ok (some v2) ∧ v1 ≤ v2) ∧
    getBetaCDF 5 3 (1/4) 1 5 = .ok (some 1) ∧
    getBetaCDF 1 3 (1/4) 1 5 = .ok (some 0) := by
  have h := getBetaCDF_monotone_and_bounds 3 (1/4) 1 5 (by norm_num) (by norm_num)
    (by norm_num) (by norm_num) (by norm_num) (fun _ _ => by norm_num)
  refine ⟨h.1 2 4 (by norm_num) (by norm_num) (by norm_num), h.2.1, ?_⟩
  rw [h.2.2]
  norm_num

/-- C8: `calcSOSParameterForMOSSOS` on equal-length arrays of per-condition
MOS and SOS values returns exactly
`Σ (z_i - z_i²)·v_i / Σ (z_i - z_i²)²` with `z_i = (mos_i - low)/(high - low)`
and `v_i = (sos_i/(high - low))²`. -/
theorem calcSOSParameterForMOSSOS_wls_formula (mos sos : List ℚ) (low high : ℚ)
    (h : mos.length = sos.length) :
    calcSOSParameterForMOSSOS mos sos low high =
      (∑ i ∈ Finset.range mos.length,
        ((mos.getD i 0 - low) / (high - low) - ((mos.getD i 0 - low) / (high - low)) ^ 2) *
          (sos.getD i 0 / (high - low)) ^ 2) /
      (∑ i ∈ Finset.range mos.length,
        ((mos.getD i 0 - low) / (high - low) - ((mos.getD i 0 - low) / (high - low)) ^ 2) ^ 2) := by
  simp only [calcSOSParameterForMOSSOS, List.zipWith_map, List.map_map]
  rw [sum_zipWith_getD mos sos 0 0 _ h, sum_map_getD mos 0]
  rfl

/-- Witness for C8 at `mos=[2,4], sos=[1,1]` on `[1, 5]`: both sides evaluate
to `1/3`. -/
theorem calcSOSParameterForMOSSOS_wls_formula_witness :
    calcSOSParameterForMOSSOS [2, 4] [1, 1] (1:ℚ) 5 = 1/3 := by
  rw [calcSOSParameterForMOSSOS_wls_formula [2, 4] [1, 1] 1 5 rfl]
  norm_num [Finset.sum_range_succ]

/-- C1 (failing input for the code bug): `calcSOSParameter` forwards neither
`low` nor `high` to `calcSOSParameterForMOSSOS`, so on the scale `[0, 4]` the
rectangular input `[[0,4],[1,1]]` yields `4/3` (normalized with the default
bounds `1, 5`), while normalizing the per-row means and standard deviations
with the given bounds `0, 4` — what the claim and the docstring describe —
yields `16/25`. -/
theorem calcSOSParameter_ignores_bounds :
    calcSOSParameterArray [[0, 4], [1, 1]] 0 4 = 4/3 ∧
    calcSOSParameterForMOSSOS [npMean [(0:ℝ), 4], npMean [1, 1]]
      [npStd [(0:ℝ), 4], npStd [1, 1]] 0 4 = 16/25 ∧
    ((4:ℝ)/3 ≠ 16/25) := by
  have h4 : Real.sqrt 4 = 2 := by
    rw [show (4:ℝ) = 2 ^ 2 by norm_num]
    exact Real.sqrt_sq (by norm_num)
  have hm1 : npMean [(0:ℝ), 4] = 2 := by norm_num [npMean]
  have hm2 : npMean [(1:ℝ), 1] = 1 := by norm_num [npMean]
  have hs1 : npStd [(0:ℝ), 4] = 2 := by
    simp only [npStd, hm1, List.map_cons, List.map_nil, List.sum_cons, List.sum_nil,
      List.length_cons, List.length_nil]
    norm_num [h4]
  have hs2 : npStd [(1:ℝ), 1] = 0 := by
    simp only [npStd, hm2, List.map_cons, List.map_nil, List.sum_cons, List.sum_nil,
      List.length_cons, List.length_nil]
    norm_num [Real.sqrt_zero]
  refine ⟨?_, ?_, by norm_num⟩
  · simp only [calcSOSParameterArray, List.map_cons, List.map_nil, hm1, hm2, hs1, hs2]
    norm_num [calcSOSParameterForMOSSOS]
  · rw [hm1, hm2, hs1, hs2]
    norm_num [calcSOSParameterForMOSSOS]

/-- C10: the two input shapes of `calcSOSParameter` use different dispersion
estimators — the rectangular path takes each row's population standard
deviation (`numpy`, divisor `n`), the tabular path each group's sample
standard deviation (`pandas`, divisor `n-1`) — so the same ratings presented
in the two shapes yield different SOS parameters: `92/425` versus `138/425`
for the ratings `[1,2,3]` (condition 0) and `[4,5,5]` (condition 1). -/
theorem calcSOSParameter_dispersion_estimators_differ :
    groupRatings [((0:ℕ), (1:ℝ)), (0, 2), (0, 3), (1, 4), (1, 5), (1, 5)] 0 = [1, 2, 3] ∧
    groupRatings [((0:ℕ), (1:ℝ)), (0, 2), (0, 3), (1, 4), (1, 5), (1, 5)] 1 = [4, 5, 5] ∧
    calcSOSParameterArray [[1, 2, 3], [4, 5, 5]] 1 5 = 92/425 ∧
    calcSOSParameterDF [((0:ℕ), (1:ℝ)), (0, 2), (0, 3), (1, 4), (1, 5), (1, 5)] 1 5 = 138/425 ∧
    ((92:ℝ)/425 ≠ 138/425) := by
  have hg0 : groupRatings [((0:ℕ), (1:ℝ)), (0, 2), (0, 3), (1, 4), (1, 5), (1, 5)] 0
      = [1, 2, 3] := by
    norm_num [groupRatings, List.filter]
  have hg1 : groupRatings [((0:ℕ), (1:ℝ)), (0, 2), (0, 3), (1, 4), (1, 5), (1, 5)] 1
      = [4, 5, 5] := by
    norm_num [groupRatings, List.filter]
  have hm1 : npMean [(1:ℝ), 2, 3] = 2 := by norm_num [npMean]
  have hm2 : npMean [(4:ℝ), 5, 5] = 14/3 := by norm_num [npMean]
  have hs1 : npStd [(1:ℝ), 2, 3] = Real.sqrt (2/3) := by
    simp only [npStd, hm1, List.map_cons, List.map_nil, List.sum_cons, List.sum_nil,
      List.length_cons, List.length_nil]
    norm_num
  have hs2 : npStd [(4:ℝ), 5, 5] = Real.sqrt (2/9) := by
    simp only [npStd, hm2, List.map_cons, List.map_nil, List.sum_cons, List.sum_nil,
      List.length_cons, List.length_nil]
    norm_num
  have hp1 : pdStd [(1:ℝ), 2, 3] = 1 := by
    simp only [pdStd, hm1, List.map_cons, List.map_nil, List.sum_cons, List.sum_nil,
      List.length_cons, List.length_nil]
    norm_num [Real.sqrt_one]
  have hp2 : pdStd [(4:ℝ), 5, 5] = Real.sqrt (1/3) := by
    simp only [pdStd, hm2, List.map_cons, List.map_nil, List.sum_cons, List.sum_nil,
      List.length_cons, List.length_nil]
    norm_num
  have hded : ([0, 0, 0, 1, 1, 1] : List ℕ).dedup = [0, 1] := by decide
  refine ⟨hg0, hg1, ?_, ?_, by norm_num⟩
  · simp only [calcSOSParameterArray, List.map_cons, List.map_nil, hm1, hm2, hs1, hs2]
    norm_num [calcSOSParameterForMOSSOS, div_pow, Real.sq_sqrt]
  · simp only [calcSOSParameterDF, hded, List.map_cons, List.map_nil, hg0, hg1,
      hm1, hm2, hp1, hp2]
    norm_num [calcSOSParameterForMOSSOS, div_pow, Real.sq_sqrt]

/-- Counterexample for C2 as stated: `mos=3, sos_parameter=1, low=1, high=5`
passes validation and takes the general branch, but the derived shape pair is
`(0, 0)`, so every `beta.cdf` evaluation returns `nan` (`none`) and the
returned masses are five `nan`s — not real numbers that are non-negative and
sum to 1. -/
theorem getDiscreteDistribution_nan_cex :
    getDiscreteDistribution 3 1 1 5 = .ok ([1, 2, 3, 4, 5], List.replicate 5 none) ∧
    ∀ qs : List ℝ, List.replicate 5 (none : Option ℝ) ≠ qs.map some := by
  constructor
  · have hc := @checkParameters_ok ℝ _ 3 1 1 5 (by norm_num) (by norm_num) (by norm_num)
      (by norm_num) (by norm_num)
    have hg := @getBetaParams_ok ℝ _ 3 1 1 5 (by norm_num) (by norm_num) (by norm_num)
      (by norm_num) (by norm_num)
    have hd : getBetaDistribution 3 1 1 5 = .ok ⟨0, 0, 1, 4⟩ := by
      simp only [getBetaDistribution, hc, hg]
      simp only [Except.ok.injEq, BetaDist.mk.injEq]
      norm_num
    have hmap : ∀ l : List ℝ, l.map (BetaDist.cdf ⟨0, 0, 1, 4⟩) =
        List.replicate l.length none := by
      intro l
      induction l with
      | nil => rfl
      | cons a t ih => simp [BetaDist.cdf, scipyBetaCDF, ih, List.replicate_succ]
    have hlen : (npArange ((1:ℝ) - 0.5) ((5:ℝ) + 1.5)).length = 6 := by
      rw [npArange, List.length_map, List.length_range,
        show ((5:ℝ) + 1.5) - ((1:ℝ) - 0.5) = ((6:ℕ) : ℝ) by norm_num, Nat.ceil_natCast]
    simp only [getDiscreteDistribution, Int.cast_one, Int.cast_ofNat, hc, hd]
    rw [if_neg (by norm_num), if_neg (by norm_num)]
    simp only [hmap, List.length_set, hlen]
    rfl
  · intro qs h
    cases qs <;> simp [List.replicate_succ] at h

/-- C2 (amended): for every validated input on an integer-point scale whose
non-degenerate case has `sos_parameter ∈ (0, 1)`, `buildDiscreteDistribution`
returns a point mass at `high` if `mos == high`, a point mass at `low` if
`mos == low`, and otherwise the successive differences of the continuous
cumulative at the bin edges `low-0.5, low+0.5, …, high+0.5` with the first
edge clamped to `low` and the last to `high`; in every such case the masses
are real (no `nan`), non-negative and sum to `1`. -/
theorem getDiscreteDistribution_masses (mos p : ℝ) (low high : ℤ) (h1 : low < high)
    (h2 : (low : ℝ) ≤ mos) (h3 : mos ≤ (high : ℝ)) (h4 : 0 ≤ p) (h5 : p ≤ 1)
    (h6 : mos ≠ (high : ℝ) → mos ≠ (low : ℝ) → 0 < p ∧ p < 1) :
    ∃ qs : List ℝ,
      getDiscreteDistribution mos p low high = .ok (intArange low (high + 1), qs.map some) ∧
      qs.length = (high + 1 - low).toNat ∧
      qs.sum = 1 ∧ (∀ q ∈ qs, 0 ≤ q) ∧
      (mos = (high : ℝ) →
        qs = (List.replicate (high + 1 - low).toNat (0:ℝ)).set
          ((high + 1 - low).toNat - 1) 1) ∧
      (mos = (low : ℝ) → qs = (List.replicate (high + 1 - low).toNat (0:ℝ)).set 0 1) ∧
      (mos ≠ (high : ℝ) → mos ≠ (low : ℝ) →
        qs = (List.range ((high - low).toNat + 1)).map (fun j =>
          betaCDFval ((1 - p) * (mos - (low:ℝ)) / (((high:ℝ) - (low:ℝ)) * p))
              ((1 - p) * ((high:ℝ) - mos) / (((high:ℝ) - (low:ℝ)) * p))
              ((binEdge low high (j + 1) - (low:ℝ)) / ((high:ℝ) - (low:ℝ))) -
            betaCDFval ((1 - p) * (mos - (low:ℝ)) / (((high:ℝ) - (low:ℝ)) * p))
              ((1 - p) * ((high:ℝ) - mos) / (((high:ℝ) - (low:ℝ)) * p))
              ((binEdge low high j - (low:ℝ)) / ((high:ℝ) - (low:ℝ))))) := by
  have h1' : (low : ℝ) < (high : ℝ) := by exact_mod_cast h1
  have hok := checkParameters_ok h1' h2 h3 h4 h5
  have hlh2 : 2 ≤ (high + 1 - low).toNat := by omega
  by_cases hmh : mos = (high : ℝ)
  · refine ⟨(List.replicate (high + 1 - low).toNat (0:ℝ)).set ((high + 1 - low).toNat - 1) 1,
      ?_, ?_, ?_, fun q hq => mem_replicate_zero_set (by norm_num) hq, fun _ => rfl,
      fun hml => absurd (by rw [← hml]; exact hmh) (ne_of_lt h1'),
      fun hk _ => absurd hmh hk⟩
    · simp only [getDiscreteDistribution, hok]
      rw [if_pos hmh]
    · simp [List.length_set]
    · exact sum_replicate_zero_set _ _ 1 (by omega)
  · by_cases hml : mos = (low : ℝ)
    · refine ⟨(List.replicate (high + 1 - low).toNat (0:ℝ)).set 0 1,
        ?_, ?_, ?_, fun q hq => mem_replicate_zero_set (by norm_num) hq,
        fun hk => absurd hk hmh, fun _ => rfl, fun _ hk => absurd hml hk⟩
      · simp only [getDiscreteDistribution, hok]
        rw [if_neg hmh, if_pos hml]
      · simp [List.length_set]
      · exact sum_replicate_zero_set _ _ 1 (by omega)
    · have hl : (low : ℝ) < mos := lt_of_le_of_ne h2 (Ne.symm hml)
      have hh : mos < (high : ℝ) := lt_of_le_of_ne h3 hmh
      obtain ⟨hp0, hp1⟩ := h6 hmh hml
      have hD : (0:ℝ) < (high : ℝ) - (low : ℝ) := sub_pos.mpr h1'
      have hA : 0 < (1 - p) * (mos - (low:ℝ)) / (((high:ℝ) - (low:ℝ)) * p) :=
        div_pos (mul_pos (by linarith) (sub_pos.mpr hl)) (mul_pos hD hp0)
      have hB : 0 < (1 - p) * ((high:ℝ) - mos) / (((high:ℝ) - (low:ℝ)) * p) :=
        div_pos (mul_pos (by linarith) (sub_pos.mpr hh)) (mul_pos hD hp0)
      have hd : getBetaDistribution mos p (low:ℝ) (high:ℝ) = .ok
          ⟨(1 - p) * (mos - (low:ℝ)) / (((high:ℝ) - (low:ℝ)) * p),
           (1 - p) * ((high:ℝ) - mos) / (((high:ℝ) - (low:ℝ)) * p),
           (low:ℝ), (high:ℝ) - (low:ℝ)⟩ := by
        simp only [getBetaDistribution, hok, getBetaParams_ok h1' h2 h3 hp0 h5]
      have hc := toNat_cast_real h1
      have hlen : (npArange ((low:ℝ) - 0.5) ((high:ℝ) + 1.5)).length =
          (high - low).toNat + 2 := by
        rw [npArange, List.length_map, List.length_range,
          show ((high:ℝ) + 1.5) - ((low:ℝ) - 0.5) = (((high - low).toNat + 2 : ℕ) : ℝ) by
            push_cast [hc]; ring,
          Nat.ceil_natCast]
      have hzk : ((npArange ((low:ℝ) - 0.5) ((high:ℝ) + 1.5)).set 0 (low:ℝ)).set
          ((npArange ((low:ℝ) - 0.5) ((high:ℝ) + 1.5)).length - 1) (high:ℝ) =
          (List.range ((high - low).toNat + 2)).map (binEdge low high) := by
        apply List.ext_getElem
        · simp [List.length_set, hlen]
        · intro i hi1 hi2
          simp only [List.length_set, hlen] at hi1
          simp only [List.getElem_set]
          simp only [hlen]
          simp only [npArange, List.getElem_map, List.getElem_range]
          unfold binEdge
          by_cases hi0 : i = 0
          · subst hi0
            rw [if_neg (by omega), if_pos rfl, if_pos rfl]
          · by_cases hiN : i = (high - low).toNat + 1
            · rw [if_pos (by omega), if_neg hi0, if_pos hiN]
            · rw [if_neg (by omega), if_neg (by omega), if_neg hi0, if_neg hiN]
              ring
      refine ⟨(List.range ((high - low).toNat + 1)).map (fun j =>
          betaCDFval ((1 - p) * (mos - (low:ℝ)) / (((high:ℝ) - (low:ℝ)) * p))
              ((1 - p) * ((high:ℝ) - mos) / (((high:ℝ) - (low:ℝ)) * p))
              ((binEdge low high (j + 1) - (low:ℝ)) / ((high:ℝ) - (low:ℝ))) -
            betaCDFval ((1 - p) * (mos - (low:ℝ)) / (((high:ℝ) - (low:ℝ)) * p))
              ((1 - p) * ((high:ℝ) - mos) / (((high:ℝ) - (low:ℝ)) * p))
              ((binEdge low high j - (low:ℝ)) / ((high:ℝ) - (low:ℝ)))),
        ?_, ?_, ?_, ?_, fun hk => absurd hk hmh, fun hk => absurd hk hml, fun _ _ => rfl⟩
      · simp only [getDiscreteDistribution, hok]
        rw [if_neg hmh, if_neg hml]
        simp only [hd]
        rw [hzk, List.map_map]
        have hpt : ∀ j ∈ List.range ((high - low).toNat + 2),
            ((BetaDist.cdf ⟨(1 - p) * (mos - (low:ℝ)) / (((high:ℝ) - (low:ℝ)) * p),
              (1 - p) * ((high:ℝ) - mos) / (((high:ℝ) - (low:ℝ)) * p),
              (low:ℝ), (high:ℝ) - (low:ℝ)⟩) ∘ binEdge low high) j =
            (some ∘ fun k => betaCDFval
              ((1 - p) * (mos - (low:ℝ)) / (((high:ℝ) - (low:ℝ)) * p))
              ((1 - p) * ((high:ℝ) - mos) / (((high:ℝ) - (low:ℝ)) * p))
              ((binEdge low high k - (low:ℝ)) / ((high:ℝ) - (low:ℝ)))) j := by
          intro j _
          simp only [Function.comp_apply, BetaDist.cdf, scipyBetaCDF]
          rw [if_pos ⟨hA, hB⟩]
        rw [List.map_congr_left hpt, ← List.map_map, npDiff_map_some,
          show (high - low).toNat + 2 = ((high - low).toNat + 1) + 1 from rfl,
          diffR_map_range]
      · simp only [List.length_map, List.length_range]
        omega
      · have hsum := sum_range_map_sub (fun k => betaCDFval
          ((1 - p) * (mos - (low:ℝ)) / (((high:ℝ) - (low:ℝ)) * p))
          ((1 - p) * ((high:ℝ) - mos) / (((high:ℝ) - (low:ℝ)) * p))
          ((binEdge low high k - (low:ℝ)) / ((high:ℝ) - (low:ℝ))))
          ((high - low).toNat + 1)
        refine hsum.trans ?_
        have e1 : binEdge low high ((high - low).toNat + 1) = (high:ℝ) := by
          unfold binEdge
          rw [if_neg (by omega), if_pos rfl]
        have e0 : binEdge low high 0 = (low:ℝ) := by
          unfold binEdge
          rw [if_pos rfl]
        rw [e1, e0, div_self (ne_of_gt hD), sub_self, zero_div,
          betaCDFval_one hA hB, betaCDFval_zero]
        norm_num
      · intro q hq
        obtain ⟨j, hj, rfl⟩ := List.mem_map.mp hq
        have hle : (binEdge low high j - (low:ℝ)) / ((high:ℝ) - (low:ℝ)) ≤
            (binEdge low high (j + 1) - (low:ℝ)) / ((high:ℝ) - (low:ℝ)) :=
          (div_le_div_iff_of_pos_right hD).mpr (by linarith [binEdge_le_succ h1 j])
        have hmono := betaCDFval_mono hA hB hle
        linarith

/-- Witness for C2 (amended) at `mos = high = 5, sos_parameter = 1/4` on
`[1, 5]`: the returned masses are the point mass at `high`. -/
theorem getDiscreteDistribution_masses_witness :
    getDiscreteDistribution 5 (1/4) 1 5 =
      .ok (intArange 1 6, ((List.replicate 5 (0:ℝ)).set 4 1).map some) := by
  obtain ⟨qs, hres, _, _, _, hhigh, _, _⟩ := getDiscreteDistribution_masses 5 (1/4) 1 5
    (by norm_num) (by norm_num) (by norm_num) (by norm_num) (by norm_num)
    (fun hk _ => absurd (by norm_num) hk)
  rw [hres, hhigh (by norm_num)]
  norm_num [show Int.toNat 5 = 5 from rfl]
